import Mathlib

/-!
Verification development for the single-file dubbing app `app.py`
(Purna760/Streamlit_Dub).

The numeric code of `app.py` works on Python floats; here the arithmetic is
modelled exactly over `ℚ`, with Python's `math.floor`, `%`, `round` (banker's
rounding) and `int(...)` (truncation toward zero) made explicit.  Audio
(pydub `AudioSegment`) is modelled as one integer sample per millisecond,
since every position and length the code manipulates is in milliseconds.
External collaborators (the translation client, gTTS speech synthesis, the
whisper transcription engines, moviepy) are modelled as oracles: per-call
results that may be `none` (an exception in the corresponding `try` block).
-/

/-- Python `a % b` for a positive modulus `b`, as used by `seconds %= 3600`
and `seconds %= 60` in `format_time` (app.py lines 118, 120). -/
def pymod (a b : ℚ) : ℚ := a - b * ⌊a / b⌋

/-- Python's builtin `round` on an exact rational: round half to even. -/
def pyround (q : ℚ) : ℤ :=
  if q - ⌊q⌋ < 1/2 then ⌊q⌋
  else if 1/2 < q - ⌊q⌋ then ⌊q⌋ + 1
  else if ⌊q⌋ % 2 = 0 then ⌊q⌋ else ⌊q⌋ + 1

/-- Python's builtin `int(...)` on a rational: truncation toward zero. -/
def pyint (q : ℚ) : ℤ := if 0 ≤ q then ⌊q⌋ else -⌊-q⌋

/-- Zero-padding of a natural number to width `w`, as Python's `f"{n:0wd}"`
renders a non-negative integer. -/
def padNat (w : ℕ) (n : ℕ) : String :=
  let s := Nat.repr n
  String.mk (List.replicate (w - s.length) '0') ++ s

/-- Python's format spec `f"{n:0wd}"` for an integer `n` (the sign counts
toward the width, as in Python). -/
def pad0 (w : ℕ) (n : ℤ) : String :=
  if n < 0 then "-" ++ padNat (w - 1) n.natAbs else padNat w n.toNat

/-- The four integers (hours, minutes, seconds, milliseconds) computed by
`format_time` (app.py lines 117-122):
`hours = math.floor(seconds / 3600)`, `seconds %= 3600`,
`minutes = math.floor(seconds / 60)`, `seconds %= 60`,
`milliseconds = round((seconds - math.floor(seconds)) * 1000)`,
`seconds = math.floor(seconds)`. -/
def format_time_parts (s : ℚ) : ℤ × ℤ × ℤ × ℤ :=
  let hours := ⌊s / 3600⌋
  let s1 := pymod s 3600
  let minutes := ⌊s1 / 60⌋
  let s2 := pymod s1 60
  let milliseconds := pyround ((s2 - ⌊s2⌋) * 1000)
  let seconds := ⌊s2⌋
  (hours, minutes, seconds, milliseconds)

/-- app.py line 123: the rendered timestamp
`f"{hours:02d}:{minutes:02d}:{seconds:01d},{milliseconds:03d}"`.
Note the seconds field uses width 1, not 2, in the source. -/
def format_time (s : ℚ) : String :=
  let p := format_time_parts s
  pad0 2 p.1 ++ ":" ++ pad0 2 p.2.1 ++ ":" ++ pad0 1 p.2.2.1 ++ "," ++ pad0 3 p.2.2.2

theorem format_time_parts_eval_3725_5 : format_time_parts (7451/2) = (1, 2, 5, 500) := by
  norm_num [format_time_parts, pymod, pyround]

theorem format_time_parts_eval_0 : format_time_parts 0 = (0, 0, 0, 0) := by
  norm_num [format_time_parts, pymod, pyround]

theorem format_time_parts_eval_59_9999 :
    format_time_parts (599999/10000) = (0, 0, 59, 1000) := by
  norm_num [format_time_parts, pymod, pyround]

theorem format_time_parts_eval_0_0006 : format_time_parts (3/5000) = (0, 0, 0, 1) := by
  norm_num [format_time_parts, pymod, pyround]

theorem format_time_eval_3725_5 : format_time (7451/2) = "01:02:5,500" := by
  rw [format_time, format_time_parts_eval_3725_5]; decide

theorem format_time_eval_0 : format_time 0 = "00:00:0,000" := by
  rw [format_time, format_time_parts_eval_0]; decide

theorem format_time_eval_59_9999 : format_time (599999/10000) = "00:00:59,1000" := by
  rw [format_time, format_time_parts_eval_59_9999]; decide

theorem format_time_eval_0_0006 : format_time (3/5000) = "00:00:0,001" := by
  rw [format_time, format_time_parts_eval_0_0006]; decide

/-- C2, counterexample: the claim asserts `format_time 3725.5 = "01:02:05,500"`
(fixed width), but the source formats the seconds field with `{seconds:01d}`
(width 1), so the result is `"01:02:5,500"`. -/
theorem c2_counterexample :
    format_time (7451/2) = "01:02:5,500" ∧ format_time (7451/2) ≠ "01:02:05,500" := by
  refine ⟨format_time_eval_3725_5, ?_⟩
  rw [format_time_eval_3725_5]; decide

/-- C2 (amended): `format_time` floors hours, minutes and seconds and zero-pads
hours and minutes to two digits and milliseconds to three, but pads the seconds
field only to width 1, so the output is not fixed-width:
`format_time 3725.5 = "01:02:5,500"` and `format_time 0 = "00:00:0,000"`. -/
theorem c2_format_time_examples :
    format_time (7451/2) = "01:02:5,500" ∧ format_time 0 = "00:00:0,000" :=
  ⟨format_time_eval_3725_5, format_time_eval_0⟩

/-- C3, counterexample: the claim asserts the rounded milliseconds never
overflow the three-digit field, but for an input whose fractional part rounds
up to a full second the source renders a four-digit milliseconds field:
`format_time 59.9999 = "00:00:59,1000"`.  (Under the exact-rational model the
cited input 59.9995 does the same, since `round 999.5 = 1000` half-to-even.) -/
theorem c3_counterexample : format_time (599999/10000) = "00:00:59,1000" :=
  format_time_eval_59_9999

/-- C3 (amended): `format_time` rounds the milliseconds rather than truncating
them (`format_time 0.0006 = "00:00:0,001"`), but it does not guard against the
rounded value reaching 1000: `format_time 59.9999 = "00:00:59,1000"`. -/
theorem c3_round_no_overflow_guard :
    format_time (3/5000) = "00:00:0,001" ∧ format_time (599999/10000) = "00:00:59,1000" :=
  ⟨format_time_eval_0_0006, format_time_eval_59_9999⟩

theorem pyround_eq_floor_or (q : ℚ) : pyround q = ⌊q⌋ ∨ pyround q = ⌊q⌋ + 1 := by
  unfold pyround; split_ifs <;> simp

theorem pyround_nonneg {q : ℚ} (h : 0 ≤ q) : 0 ≤ pyround q := by
  have h1 : 0 ≤ ⌊q⌋ := Int.floor_nonneg.mpr h
  rcases pyround_eq_floor_or q with h2 | h2 <;> omega

theorem pyround_le_of_lt {q : ℚ} {c : ℤ} (h : q < (c : ℚ)) : pyround q ≤ c := by
  have h1 : ⌊q⌋ < c := Int.floor_lt.mpr h
  rcases pyround_eq_floor_or q with h2 | h2 <;> omega

theorem pyround_mono {a b : ℚ} (hab : a ≤ b) : pyround a ≤ pyround b := by
  rcases lt_or_eq_of_le (Int.floor_le_floor hab) with hf | hf
  · rcases pyround_eq_floor_or a with ha | ha <;> rcases pyround_eq_floor_or b with hb | hb <;>
      omega
  · have hfq : ((⌊a⌋ : ℤ) : ℚ) = ((⌊b⌋ : ℤ) : ℚ) := by exact_mod_cast hf
    have hfr : a - ⌊a⌋ ≤ b - ⌊b⌋ := by linarith
    unfold pyround
    split_ifs <;> first | omega | linarith

/-- The total-millisecond value (`SubRipTime.ordinal`) that pysrt assigns to a
timestamp rendered by `format_time`: pysrt's `SubRipTime.from_string` splits the
timestamp on `:`/`,` and reads the four integer fields back, so parsing
recovers exactly the components computed by `format_time_parts`, and the
ordinal is `3600000*h + 60000*m + 1000*sec + ms` (pysrt `srttime.py`,
external dependency). -/
def subRipOrdinal (s : ℚ) : ℤ :=
  let p := format_time_parts s
  3600000 * p.1 + 60000 * p.2.1 + 1000 * p.2.2.1 + p.2.2.2

/-- Normal form of `subRipOrdinal`: the nested floor/mod decomposition of
`format_time_parts` collapses to `1000*⌊s⌋` plus the rounded milliseconds. -/
theorem subRipOrdinal_eq (s : ℚ) :
    subRipOrdinal s = 1000 * ⌊s⌋ + pyround ((s - ⌊s⌋) * 1000) := by
  have h1 : pymod s 3600 = s - ((3600 * ⌊s / 3600⌋ : ℤ) : ℚ) := by
    rw [pymod]; push_cast; ring
  have hf1 : ⌊pymod s 3600⌋ = ⌊s⌋ - 3600 * ⌊s / 3600⌋ := by
    rw [h1, Int.floor_sub_int]
  have h2 : pymod (pymod s 3600) 60
      = pymod s 3600 - ((60 * ⌊pymod s 3600 / 60⌋ : ℤ) : ℚ) := by
    rw [pymod]; push_cast; ring
  have hf2 : ⌊pymod (pymod s 3600) 60⌋
      = ⌊pymod s 3600⌋ - 60 * ⌊pymod s 3600 / 60⌋ := by
    rw [h2, Int.floor_sub_int]
  have hfrac : pymod (pymod s 3600) 60 - (⌊pymod (pymod s 3600) 60⌋ : ℚ)
      = s - (⌊s⌋ : ℚ) := by
    rw [hf2, h2, hf1, h1]; push_cast; ring
  show 3600000 * ⌊s / 3600⌋ + 60000 * ⌊pymod s 3600 / 60⌋
      + 1000 * ⌊pymod (pymod s 3600) 60⌋
      + pyround ((pymod (pymod s 3600) 60 - ⌊pymod (pymod s 3600) 60⌋) * 1000)
      = 1000 * ⌊s⌋ + pyround ((s - ⌊s⌋) * 1000)
  rw [hfrac, hf2, hf1]
  ring

theorem subRipOrdinal_nonneg {s : ℚ} (h : 0 ≤ s) : 0 ≤ subRipOrdinal s := by
  rw [subRipOrdinal_eq]
  have h1 : 0 ≤ ⌊s⌋ := Int.floor_nonneg.mpr h
  have h2 : 0 ≤ pyround ((s - ⌊s⌋) * 1000) := by
    apply pyround_nonneg
    have := Int.floor_le s
    nlinarith
  omega

theorem subRipOrdinal_mono {a b : ℚ} (hab : a ≤ b) :
    subRipOrdinal a ≤ subRipOrdinal b := by
  rw [subRipOrdinal_eq, subRipOrdinal_eq]
  rcases lt_or_eq_of_le (Int.floor_le_floor hab) with hf | hf
  · have ha : pyround ((a - ⌊a⌋) * 1000) ≤ 1000 := by
      apply pyround_le_of_lt
      have h1 : a < ⌊a⌋ + 1 := Int.lt_floor_add_one a
      push_cast
      nlinarith
    have hb : 0 ≤ pyround ((b - ⌊b⌋) * 1000) := by
      apply pyround_nonneg
      have := Int.floor_le b
      nlinarith
    omega
  · have hfq : ((⌊a⌋ : ℤ) : ℚ) = ((⌊b⌋ : ℤ) : ℚ) := by exact_mod_cast hf
    have hm : (a - ⌊a⌋) * 1000 ≤ (b - ⌊b⌋) * 1000 := by nlinarith
    have := pyround_mono hm
    omega

/-- A transcription segment as returned by the whisper engines
(app.py lines 146-174): a start time and an end time in seconds plus the
recognized text. -/
structure Segment where
  start : ℚ
  «end» : ℚ
  text : String
deriving DecidableEq

/-- One entry of an SRT caption file as pysrt represents it
(`SubRipItem`): an integer index, start and end times (stored here as
`SubRipTime.ordinal`, total milliseconds) and the text line. -/
structure SrtEntry where
  index : ℕ
  start : ℕ
  «end» : ℕ
  text : String
deriving DecidableEq

/-- app.py lines 180-198, `generate_subtitle_file`: writes the block
`f"{index+1}\n{format_time(start)} --> {format_time(end)}\n{text}\n\n"` for
each transcription segment.  The result is modelled as the entry list that
pysrt reads back from that file: 1-based indices and the parsed time
ordinals (`subRipOrdinal`) of the formatted timestamps. -/
def generate_subtitle_file (segments : List Segment) : List SrtEntry :=
  segments.enum.map (fun p =>
    { index := p.1 + 1
      start := (subRipOrdinal p.2.start).toNat
      «end» := (subRipOrdinal p.2.«end»).toNat
      text := p.2.text })

/-- app.py lines 200-243, `translate_subtitles`: per entry `(i, sub)` of the
parsed caption file it calls the external translation client; on success it
appends `SubRipItem(index=i, start=sub.start, end=sub.end, text=translated)`
(note `index=i`, the 0-based loop counter), on an exception it appends the
original `sub` unchanged.  `tr i text` is the client's answer for line `i`
(`none` models an exception in that iteration's `try` block). -/
def translate_subtitles (subs : List SrtEntry)
    (tr : ℕ → String → Option String) : List SrtEntry :=
  subs.enum.map (fun p =>
    match tr p.1 p.2.text with
    | some t => { index := p.1, start := p.2.start, «end» := p.2.«end», text := t }
    | none => p.2)

theorem translate_subtitles_length (subs : List SrtEntry)
    (tr : ℕ → String → Option String) :
    (translate_subtitles subs tr).length = subs.length := by
  simp [translate_subtitles]

theorem translate_subtitles_getElem? (subs : List SrtEntry)
    (tr : ℕ → String → Option String) (i : ℕ) :
    (translate_subtitles subs tr)[i]? = (subs[i]?).map (fun sub =>
      match tr i sub.text with
      | some t => { index := i, start := sub.start, «end» := sub.«end», text := t }
      | none => sub) := by
  simp only [translate_subtitles, List.getElem?_map, List.getElem?_enum]
  cases subs[i]? <;> rfl

/-- Python's `str.strip()`: remove leading and trailing whitespace
(app.py line 257, `text = sub.text.strip()`). -/
def pystrip (s : String) : String :=
  String.mk (((s.data.dropWhile Char.isWhitespace).reverse.dropWhile
    Char.isWhitespace).reverse)

/-- pydub `AudioSegment.silent(duration=n)`: `n` milliseconds of silence;
an `AudioSegment` is modelled as one integer sample per millisecond. -/
def silent (n : ℕ) : List ℤ := List.replicate n 0

/-- pydub `base.overlay(seg, position=pos)`: mixes `seg` into `base` starting
at millisecond `pos` by adding samples; the result always keeps the length of
`base` (an overhanging overlay is truncated, never extends the base). -/
def overlay (base seg : List ℤ) (pos : ℕ) : List ℤ :=
  (List.range base.length).map (fun i =>
    base.getD i 0 + if pos ≤ i ∧ i < pos + seg.length then seg.getD (i - pos) 0 else 0)

/-- Loop body of `generate_translated_audio` (app.py lines 253-281) for one
caption entry: strip the text and do nothing when it is empty; otherwise
synthesize the clip (`tts`, modelling gTTS + `AudioSegment.from_mp3`; `none`
is an exception, which the `except` branch turns into a skip); compute
`start_ms = int((sub.start.ordinal / 1000.0) * 1000)` and overlay the clip
there only if `start_ms + len(clip) <= len(track)`. -/
def placeSegment (tts : String → Option (List ℤ)) (track : List ℤ)
    (sub : SrtEntry) : List ℤ :=
  if pystrip sub.text = "" then track
  else
    match tts (pystrip sub.text) with
    | none => track
    | some clip =>
        if pyint ((sub.start : ℚ) / 1000 * 1000) + clip.length ≤ (track.length : ℤ) then
          overlay track clip (pyint ((sub.start : ℚ) / 1000 * 1000)).toNat
        else track

/-- app.py lines 245-290, `generate_translated_audio`: start from
`AudioSegment.silent(duration=int(video_duration * 1000))` and fold the
per-entry placement over the parsed caption entries.  (The source then
exports the track to a wav file; the returned value here is the track
itself.) -/
def generate_translated_audio (subs : List SrtEntry)
    (tts : String → Option (List ℤ)) (video_duration : ℚ) : List ℤ :=
  subs.foldl (placeSegment tts) (silent (pyint (video_duration * 1000)).toNat)

theorem pyint_div_mul_thousand (o : ℕ) : pyint ((o : ℚ) / 1000 * 1000) = (o : ℤ) := by
  have h : ((o : ℚ) / 1000 * 1000) = (o : ℚ) := by
    rw [div_mul_cancel₀]
    norm_num
  rw [h, pyint, if_pos (by positivity), Int.floor_natCast]

theorem overlay_length (base seg : List ℤ) (pos : ℕ) :
    (overlay base seg pos).length = base.length := by
  simp [overlay]

theorem placeSegment_length (tts : String → Option (List ℤ)) (track : List ℤ)
    (sub : SrtEntry) : (placeSegment tts track sub).length = track.length := by
  rw [placeSegment]
  by_cases h1 : pystrip sub.text = ""
  · simp [h1]
  · simp only [h1, if_false]
    cases h2 : tts (pystrip sub.text) with
    | none => rfl
    | some clip =>
        simp only []
        split_ifs with h3
        · exact overlay_length _ _ _
        · rfl

theorem foldl_placeSegment_length (tts : String → Option (List ℤ))
    (subs : List SrtEntry) : ∀ track : List ℤ,
    (subs.foldl (placeSegment tts) track).length = track.length := by
  induction subs with
  | nil => intro track; rfl
  | cons s ss ih =>
      intro track
      rw [List.foldl_cons, ih, placeSegment_length]

theorem overlay_getD (base seg : List ℤ) (pos : ℕ)
    (hfit : pos + seg.length ≤ base.length) (p : ℕ) :
    (overlay base seg pos).getD p 0
      = base.getD p 0 +
        (if pos ≤ p ∧ p < pos + seg.length then seg.getD (p - pos) 0 else 0) := by
  by_cases hp : p < base.length
  · have hlen : p < (overlay base seg pos).length := by
      rw [overlay_length]; exact hp
    rw [List.getD_eq_getElem _ _ hlen]
    simp only [overlay, List.getElem_map, List.getElem_range]
  · have h1 : base.length ≤ p := Nat.le_of_not_lt hp
    rw [List.getD_eq_default _ _ (by rw [overlay_length]; exact h1),
        List.getD_eq_default _ _ h1, if_neg (by omega), add_zero]

theorem placeSegment_of_empty {sub : SrtEntry} (tts : String → Option (List ℤ))
    (track : List ℤ) (h1 : pystrip sub.text = "") :
    placeSegment tts track sub = track := by
  rw [placeSegment, if_pos h1]

theorem placeSegment_of_ttsNone {tts : String → Option (List ℤ)} {sub : SrtEntry}
    (track : List ℤ) (h2 : tts (pystrip sub.text) = none) :
    placeSegment tts track sub = track := by
  rw [placeSegment]
  by_cases h1 : pystrip sub.text = ""
  · rw [if_pos h1]
  · rw [if_neg h1]
    simp only [h2]

theorem placeSegment_of_fit {tts : String → Option (List ℤ)} {sub : SrtEntry}
    {clip : List ℤ} (track : List ℤ) (h1 : ¬ pystrip sub.text = "")
    (h2 : tts (pystrip sub.text) = some clip)
    (h3 : pyint ((sub.start : ℚ) / 1000 * 1000) + clip.length ≤ (track.length : ℤ)) :
    placeSegment tts track sub
      = overlay track clip (pyint ((sub.start : ℚ) / 1000 * 1000)).toNat := by
  rw [placeSegment, if_neg h1]
  simp only [h2]
  rw [if_pos h3]

theorem placeSegment_of_noFit {tts : String → Option (List ℤ)} {sub : SrtEntry}
    {clip : List ℤ} (track : List ℤ) (h1 : ¬ pystrip sub.text = "")
    (h2 : tts (pystrip sub.text) = some clip)
    (h3 : ¬ pyint ((sub.start : ℚ) / 1000 * 1000) + clip.length ≤ (track.length : ℤ)) :
    placeSegment tts track sub = track := by
  rw [placeSegment, if_neg h1]
  simp only [h2]
  rw [if_neg h3]

/-- The per-entry placement decision of `generate_translated_audio`'s loop,
as an option: `some (start position, clip)` iff the entry's stripped text is
nonempty, synthesis succeeds and the clip fits in a track of length
`trackLen`; `none` otherwise. -/
def placeGuard (tts : String → Option (List ℤ)) (trackLen : ℕ)
    (sub : SrtEntry) : Option (ℕ × List ℤ) :=
  if pystrip sub.text = "" then none
  else
    match tts (pystrip sub.text) with
    | none => none
    | some clip =>
        if pyint ((sub.start : ℚ) / 1000 * 1000) + clip.length ≤ (trackLen : ℤ)
        then some ((pyint ((sub.start : ℚ) / 1000 * 1000)).toNat, clip)
        else none

/-- The (start position, clip) pairs actually overlaid onto a track of length
`trackLen` by the loop of `generate_translated_audio`. -/
def placedClips (tts : String → Option (List ℤ)) (trackLen : ℕ)
    (subs : List SrtEntry) : List (ℕ × List ℤ) :=
  subs.filterMap (placeGuard tts trackLen)

theorem placeGuard_of_empty {sub : SrtEntry} (tts : String → Option (List ℤ))
    (L : ℕ) (h1 : pystrip sub.text = "") : placeGuard tts L sub = none := by
  rw [placeGuard, if_pos h1]

theorem placeGuard_of_ttsNone {tts : String → Option (List ℤ)} {sub : SrtEntry}
    (L : ℕ) (h2 : tts (pystrip sub.text) = none) : placeGuard tts L sub = none := by
  rw [placeGuard]
  by_cases h1 : pystrip sub.text = ""
  · rw [if_pos h1]
  · rw [if_neg h1]
    simp only [h2]

theorem placeGuard_of_fit {tts : String → Option (List ℤ)} {sub : SrtEntry}
    {clip : List ℤ} (L : ℕ) (h1 : ¬ pystrip sub.text = "")
    (h2 : tts (pystrip sub.text) = some clip)
    (h3 : pyint ((sub.start : ℚ) / 1000 * 1000) + clip.length ≤ (L : ℤ)) :
    placeGuard tts L sub
      = some ((pyint ((sub.start : ℚ) / 1000 * 1000)).toNat, clip) := by
  rw [placeGuard, if_neg h1]
  simp only [h2]
  rw [if_pos h3]

theorem placeGuard_of_noFit {tts : String → Option (List ℤ)} {sub : SrtEntry}
    {clip : List ℤ} (L : ℕ) (h1 : ¬ pystrip sub.text = "")
    (h2 : tts (pystrip sub.text) = some clip)
    (h3 : ¬ pyint ((sub.start : ℚ) / 1000 * 1000) + clip.length ≤ (L : ℤ)) :
    placeGuard tts L sub = none := by
  rw [placeGuard, if_neg h1]
  simp only [h2]
  rw [if_neg h3]

theorem placedClips_cons_of_none {tts : String → Option (List ℤ)} {L : ℕ}
    {sub : SrtEntry} (ss : List SrtEntry) (h : placeGuard tts L sub = none) :
    placedClips tts L (sub :: ss) = placedClips tts L ss := by
  unfold placedClips
  exact List.filterMap_cons_none h

theorem placedClips_cons_of_some {tts : String → Option (List ℤ)} {L : ℕ}
    {sub : SrtEntry} {pc : ℕ × List ℤ} (ss : List SrtEntry)
    (h : placeGuard tts L sub = some pc) :
    placedClips tts L (sub :: ss) = pc :: placedClips tts L ss := by
  unfold placedClips
  exact List.filterMap_cons_some h

/-- Sample contributed by a placed clip `pc` at track position `p`. -/
def contribAt (p : ℕ) (pc : ℕ × List ℤ) : ℤ :=
  if pc.1 ≤ p ∧ p < pc.1 + pc.2.length then pc.2.getD (p - pc.1) 0 else 0

theorem foldl_placeSegment_getD (tts : String → Option (List ℤ)) (p : ℕ) :
    ∀ (subs : List SrtEntry) (track : List ℤ),
    (subs.foldl (placeSegment tts) track).getD p 0
      = track.getD p 0
        + ((placedClips tts track.length subs).map (contribAt p)).sum := by
  intro subs
  induction subs with
  | nil => intro track; simp [placedClips]
  | cons sub ss ih =>
      intro track
      rw [List.foldl_cons, ih (placeSegment tts track sub), placeSegment_length]
      by_cases h1 : pystrip sub.text = ""
      · rw [placeSegment_of_empty tts track h1,
          placedClips_cons_of_none ss (placeGuard_of_empty tts track.length h1)]
      · cases h2 : tts (pystrip sub.text) with
        | none =>
            rw [placeSegment_of_ttsNone track h2,
              placedClips_cons_of_none ss (placeGuard_of_ttsNone track.length h2)]
        | some clip =>
            by_cases h3 :
                pyint ((sub.start : ℚ) / 1000 * 1000) + clip.length
                  ≤ (track.length : ℤ)
            · have hfit :
                  (pyint ((sub.start : ℚ) / 1000 * 1000)).toNat + clip.length
                    ≤ track.length := by
                rw [pyint_div_mul_thousand] at h3 ⊢
                omega
              rw [placeSegment_of_fit track h1 h2 h3,
                overlay_getD track clip _ hfit p,
                placedClips_cons_of_some ss (placeGuard_of_fit track.length h1 h2 h3),
                List.map_cons, List.sum_cons]
              show track.getD p 0 + _ + _ = track.getD p 0 + (contribAt p _ + _)
              rw [contribAt]
              ring
            · rw [placeSegment_of_noFit track h1 h2 h3,
                placedClips_cons_of_none ss (placeGuard_of_noFit track.length h1 h2 h3)]

/-- C9: the track returned by `generate_translated_audio` always has exactly
`int(video_duration * 1000)` samples (milliseconds), independent of the
caption entries: the silent base is never extended, and a synthesized clip
whose start position plus clip length exceeds the track length leaves the
track unchanged (dropped entirely, not truncated or partially placed). -/
theorem c9_track_length_fixed :
    (∀ (subs : List SrtEntry) (tts : String → Option (List ℤ)) (d : ℚ),
      (generate_translated_audio subs tts d).length = (pyint (d * 1000)).toNat)
    ∧ (∀ (tts : String → Option (List ℤ)) (track : List ℤ) (sub : SrtEntry)
        (clip : List ℤ), tts (pystrip sub.text) = some clip →
        ¬ pyint ((sub.start : ℚ) / 1000 * 1000) + clip.length ≤ (track.length : ℤ) →
        placeSegment tts track sub = track) := by
  constructor
  · intro subs tts d
    rw [generate_translated_audio, foldl_placeSegment_length]
    simp [silent]
  · intro tts track sub clip h2 h3
    by_cases h1 : pystrip sub.text = ""
    · exact placeSegment_of_empty tts track h1
    · exact placeSegment_of_noFit track h1 h2 h3

theorem c9_witness :
    (generate_translated_audio [] (fun _ => none) 10).length
        = (pyint ((10 : ℚ) * 1000)).toNat
    ∧ placeSegment (fun _ => some [1, 1]) [0]
        { index := 1, start := 5000, «end» := 6000, text := "x" } = [0] :=
  ⟨c9_track_length_fixed.1 [] (fun _ => none) 10,
   c9_track_length_fixed.2 (fun _ => some [1, 1]) [0]
     { index := 1, start := 5000, «end» := 6000, text := "x" } [1, 1] rfl
     (by rw [pyint_div_mul_thousand]; decide)⟩

/-- C1 (amended): the assembled track's duration is exactly
`int(video_duration * 1000)` milliseconds regardless of the caption entries,
so it does not in general equal the last segment's end time; every overlay
the loop actually performs satisfies start + clip length ≤ track length, and
the fold never changes the track length, so the output duration is at least
start + clip length for every placed clip. -/
theorem c1_duration_is_video_duration :
    (∀ (subs : List SrtEntry) (tts : String → Option (List ℤ)) (d : ℚ),
      (generate_translated_audio subs tts d).length = (pyint (d * 1000)).toNat)
    ∧ (∀ (tts : String → Option (List ℤ)) (track : List ℤ) (sub : SrtEntry)
        (clip : List ℤ), tts (pystrip sub.text) = some clip →
        placeSegment tts track sub ≠ track →
        (sub.start : ℤ) + clip.length ≤ (track.length : ℤ))
    ∧ (∀ (tts : String → Option (List ℤ)) (subs : List SrtEntry) (track : List ℤ),
        (subs.foldl (placeSegment tts) track).length = track.length) := by
  refine ⟨?_, ?_, ?_⟩
  · intro subs tts d
    rw [generate_translated_audio, foldl_placeSegment_length]
    simp [silent]
  · intro tts track sub clip h2 hne
    by_cases h1 : pystrip sub.text = ""
    · exact absurd (placeSegment_of_empty tts track h1) hne
    · by_cases h3 :
          pyint ((sub.start : ℚ) / 1000 * 1000) + clip.length ≤ (track.length : ℤ)
      · rw [pyint_div_mul_thousand] at h3
        exact h3
      · exact absurd (placeSegment_of_noFit track h1 h2 h3) hne
  · intro tts subs track
    exact foldl_placeSegment_length tts subs track

/-- C1, counterexample: with a 10-second video and a single caption segment
ending at 2000 ms whose synthesized clip is 500 ms long, the assembled track
is 10000 ms long — not the last segment's end time of 2000 ms, off by more
than the claimed |clip length - nominal duration| = 1500 ms tolerance. -/
theorem c1_counterexample :
    (generate_translated_audio [{ index := 1, start := 0, «end» := 2000, text := "hola" }]
        (fun _ => some (List.replicate 500 1)) 10).length = 10000
    ∧ (10000 : ℤ) - 2000 > 1500 := by
  constructor
  · rw [generate_translated_audio, foldl_placeSegment_length]
    simp [silent]
    norm_num [pyint]
    decide
  · norm_num

theorem c1_witness :
    (generate_translated_audio [] (fun _ => none) 0).length
        = (pyint ((0 : ℚ) * 1000)).toNat
    ∧ (({ index := 1, start := 0, «end» := 1000, text := "x" } : SrtEntry).start : ℤ)
        + (([7] : List ℤ).length : ℤ) ≤ (([0, 0, 0] : List ℤ).length : ℤ)
    ∧ (List.foldl (placeSegment (fun _ => none)) [0] []).length
        = ([0] : List ℤ).length :=
  ⟨c1_duration_is_video_duration.1 [] (fun _ => none) 0,
   c1_duration_is_video_duration.2.1 (fun _ => some [7]) [0, 0, 0]
     { index := 1, start := 0, «end» := 1000, text := "x" } [7] rfl
     (by
       rw [placeSegment_of_fit [0, 0, 0] (by decide) rfl
         (by rw [pyint_div_mul_thousand]; decide)]
       rw [pyint_div_mul_thousand]
       decide),
   c1_duration_is_video_duration.2.2 (fun _ => none) [] [0]⟩

/-- C10: every synthesized clip is mixed into the track at exactly its
segment's start offset: at every position `p` the produced track's sample is
the sum of the contributions of the placed clips that cover `p`, over the
silent base.  Placing a clip adds to — never shifts, delays or removes —
audio already present, so clips from overlapping segments are mixed. -/
theorem c10_overlay_mix (subs : List SrtEntry) (tts : String → Option (List ℤ))
    (d : ℚ) (p : ℕ) :
    (generate_translated_audio subs tts d).getD p 0
      = ((placedClips tts (pyint (d * 1000)).toNat subs).map (contribAt p)).sum := by
  rw [generate_translated_audio,
    foldl_placeSegment_getD tts p subs (silent (pyint (d * 1000)).toNat)]
  have hlen : (silent (pyint (d * 1000)).toNat).length = (pyint (d * 1000)).toNat := by
    simp [silent]
  rw [hlen]
  have hgetD : (silent (pyint (d * 1000)).toNat).getD p 0 = 0 := by
    rcases lt_or_ge p (pyint (d * 1000)).toNat with hp | hp
    · rw [List.getD_eq_getElem _ _ (by simpa [silent] using hp)]
      simp [silent]
    · rw [List.getD_eq_default _ _ (by simpa [silent] using hp)]
  rw [hgetD, zero_add]

theorem generate_subtitle_file_getElem? (segments : List Segment) (i : ℕ) :
    (generate_subtitle_file segments)[i]? = (segments[i]?).map (fun seg =>
      { index := i + 1
        start := (subRipOrdinal seg.start).toNat
        «end» := (subRipOrdinal seg.«end»).toNat
        text := seg.text }) := by
  simp only [generate_subtitle_file, List.getElem?_map, List.getElem?_enum]
  cases segments[i]? <;> rfl

/-- C7 (amended): `translate_subtitles` preserves the number of entries, their
order and every entry's start and end timestamps exactly; the text and the
index field may differ (successfully translated entries are re-indexed with
the 0-based loop counter). -/
theorem c7_timestamps_preserved (subs : List SrtEntry)
    (tr : ℕ → String → Option String) (i : ℕ) (d : SrtEntry) :
    (translate_subtitles subs tr).length = subs.length
    ∧ ((translate_subtitles subs tr).getD i d).start = (subs.getD i d).start
    ∧ ((translate_subtitles subs tr).getD i d).«end» = (subs.getD i d).«end» := by
  refine ⟨translate_subtitles_length subs tr, ?_, ?_⟩ <;>
  · rw [List.getD_eq_getElem?_getD, List.getD_eq_getElem?_getD,
      translate_subtitles_getElem?]
    cases h : subs[i]? with
    | none => rfl
    | some sub =>
        rw [Option.map_some', Option.getD_some, Option.getD_some]
        cases htr : tr i sub.text <;> simp only [htr]

/-- C7, counterexample: the claim says only the text field may differ between
an input entry and its translated counterpart, but `translate_subtitles` also
rewrites the index: a file whose single entry carries index 1 is translated to
an entry carrying index 0. -/
theorem c7_counterexample :
    (translate_subtitles [{ index := 1, start := 0, «end» := 1000, text := "hello" }]
        (fun _ _ => some "hola")).map SrtEntry.index = [0]
    ∧ ([{ index := 1, start := 0, «end» := 1000, text := "hello" }] : List SrtEntry).map
        SrtEntry.index = [1]
    ∧ ([0] : List ℕ) ≠ [1] := by
  refine ⟨by decide, by decide, by decide⟩

/-- C4 (amended): the caption file built by `generate_subtitle_file` has
1-based contiguous indices, and its entries satisfy start ≤ end whenever every
input segment has 0 ≤ start ≤ end (the formatted-then-parsed timestamps are
monotone in the segment times); `translate_subtitles` preserves each entry's
start and end, hence start ≤ end, but it gives a successfully translated
entry the 0-based loop index i instead of a 1-based one. -/
theorem c4_caption_invariants :
    (∀ (segments : List Segment) (i : ℕ) (d : SrtEntry), i < segments.length →
      ((generate_subtitle_file segments).getD i d).index = i + 1)
    ∧ (∀ segments : List Segment,
        (∀ seg ∈ segments, 0 ≤ seg.start ∧ seg.start ≤ seg.«end») →
        ∀ e ∈ generate_subtitle_file segments, e.start ≤ e.«end»)
    ∧ (∀ (subs : List SrtEntry) (tr : ℕ → String → Option String),
        (∀ s ∈ subs, s.start ≤ s.«end») →
        ∀ e ∈ translate_subtitles subs tr, e.start ≤ e.«end») := by
  refine ⟨?_, ?_, ?_⟩
  · intro segments i d hi
    rw [List.getD_eq_getElem?_getD, generate_subtitle_file_getElem?,
      List.getElem?_eq_getElem hi, Option.map_some', Option.getD_some]
  · intro segments hseg e he
    rw [generate_subtitle_file] at he
    obtain ⟨p, hp, rfl⟩ := List.mem_map.mp he
    have hmem : p.2 ∈ segments :=
      List.getElem?_mem (List.mem_enum_iff_getElem?.mp hp)
    obtain ⟨h0, hle⟩ := hseg p.2 hmem
    show (subRipOrdinal p.2.start).toNat ≤ (subRipOrdinal p.2.«end»).toNat
    have hmono := subRipOrdinal_mono hle
    have hnn := subRipOrdinal_nonneg h0
    omega
  · intro subs tr hs e he
    rw [translate_subtitles] at he
    obtain ⟨p, hp, rfl⟩ := List.mem_map.mp he
    have hmem : p.2 ∈ subs :=
      List.getElem?_mem (List.mem_enum_iff_getElem?.mp hp)
    have hle := hs p.2 hmem
    cases htr : tr p.1 p.2.text <;> simp only [htr] <;> exact hle

/-- C4, counterexample: the translated caption file is not 1-based: a file
whose single entry carries index 1 is translated (successfully) into a file
whose first entry carries index 0, not 1. -/
theorem c4_counterexample :
    (translate_subtitles [{ index := 1, start := 0, «end» := 2000, text := "hi" }]
        (fun _ _ => some "ciao")).map SrtEntry.index = [0]
    ∧ ([0] : List ℕ) ≠ [1] := by
  constructor <;> decide

theorem c4_witness :
    ((generate_subtitle_file [{ start := 0, «end» := 1/2, text := "hey" }]).getD 0
        { index := 0, start := 0, «end» := 0, text := "" }).index = 0 + 1
    ∧ ({ index := 1, start := (subRipOrdinal (0 : ℚ)).toNat,
          «end» := (subRipOrdinal (1/2 : ℚ)).toNat, text := "hey" } : SrtEntry).start
        ≤ ({ index := 1, start := (subRipOrdinal (0 : ℚ)).toNat,
             «end» := (subRipOrdinal (1/2 : ℚ)).toNat, text := "hey" } : SrtEntry).«end»
    ∧ ({ index := 1, start := 0, «end» := 1000, text := "a" } : SrtEntry).start
        ≤ ({ index := 1, start := 0, «end» := 1000, text := "a" } : SrtEntry).«end» :=
  ⟨c4_caption_invariants.1 [{ start := 0, «end» := 1/2, text := "hey" }] 0
      { index := 0, start := 0, «end» := 0, text := "" } (by decide),
   c4_caption_invariants.2.1 [{ start := 0, «end» := 1/2, text := "hey" }]
      (by
        intro seg hs
        rw [List.mem_singleton] at hs
        subst hs
        norm_num)
      { index := 1, start := (subRipOrdinal (0 : ℚ)).toNat,
        «end» := (subRipOrdinal (1/2 : ℚ)).toNat, text := "hey" }
      (List.mem_singleton_self _),
   c4_caption_invariants.2.2 [{ index := 1, start := 0, «end» := 1000, text := "a" }]
      (fun _ _ => none) (by decide)
      { index := 1, start := 0, «end» := 1000, text := "a" } (by decide)⟩

/-- C6: a per-segment failure of the translation client or of the synthesis
client never aborts the batch: `translate_subtitles` returns one entry per
input entry, keeps the whole original entry when the client raises on it, and
stores the client's answer when it succeeds; in `generate_translated_audio` a
segment whose synthesis raises contributes nothing while all other segments
are still processed (the result equals the run with that segment removed). -/
theorem c6_per_segment_failure_no_abort :
    (∀ (subs : List SrtEntry) (tr : ℕ → String → Option String),
      (translate_subtitles subs tr).length = subs.length)
    ∧ (∀ (subs : List SrtEntry) (tr : ℕ → String → Option String) (i : ℕ)
        (d : SrtEntry), tr i ((subs.getD i d).text) = none →
        (translate_subtitles subs tr).getD i d = subs.getD i d)
    ∧ (∀ (subs : List SrtEntry) (tr : ℕ → String → Option String) (i : ℕ)
        (d : SrtEntry) (t : String), i < subs.length →
        tr i ((subs.getD i d).text) = some t →
        ((translate_subtitles subs tr).getD i d).text = t)
    ∧ (∀ (pre post : List SrtEntry) (sub : SrtEntry)
        (tts : String → Option (List ℤ)) (d : ℚ), tts (pystrip sub.text) = none →
        generate_translated_audio (pre ++ sub :: post) tts d
          = generate_translated_audio (pre ++ post) tts d) := by
  refine ⟨fun subs tr => translate_subtitles_length subs tr, ?_, ?_, ?_⟩
  · intro subs tr i d htr
    rw [List.getD_eq_getElem?_getD] at htr
    rw [List.getD_eq_getElem?_getD, List.getD_eq_getElem?_getD,
      translate_subtitles_getElem?]
    cases h : subs[i]? with
    | none => rfl
    | some sub =>
        rw [h, Option.getD_some] at htr
        rw [Option.map_some', Option.getD_some, Option.getD_some]
        simp only [htr]
  · intro subs tr i d t hi htr
    rw [List.getD_eq_getElem?_getD, List.getElem?_eq_getElem hi,
      Option.getD_some] at htr
    rw [List.getD_eq_getElem?_getD, translate_subtitles_getElem?,
      List.getElem?_eq_getElem hi, Option.map_some', Option.getD_some]
    simp only [htr]
  · intro pre post sub tts d hnone
    rw [generate_translated_audio, generate_translated_audio,
      List.foldl_append, List.foldl_cons, List.foldl_append,
      placeSegment_of_ttsNone _ hnone]

theorem c6_witness :
    (translate_subtitles [{ index := 1, start := 0, «end» := 1000, text := "a" }]
        (fun _ _ => none)).length
      = ([{ index := 1, start := 0, «end» := 1000, text := "a" }] : List SrtEntry).length
    ∧ (translate_subtitles [{ index := 1, start := 0, «end» := 1000, text := "a" }]
        (fun _ _ => none)).getD 0 { index := 0, start := 0, «end» := 0, text := "" }
      = ([{ index := 1, start := 0, «end» := 1000, text := "a" }] : List SrtEntry).getD 0
          { index := 0, start := 0, «end» := 0, text := "" }
    ∧ ((translate_subtitles [{ index := 1, start := 0, «end» := 1000, text := "b" }]
        (fun _ _ => some "B")).getD 0
          { index := 0, start := 0, «end» := 0, text := "" }).text = "B"
    ∧ generate_translated_audio
        ([] ++ { index := 1, start := 0, «end» := 1000, text := "x" } :: [])
        (fun _ => none) 1
      = generate_translated_audio ([] ++ []) (fun _ => none) 1 :=
  ⟨c6_per_segment_failure_no_abort.1
      [{ index := 1, start := 0, «end» := 1000, text := "a" }] (fun _ _ => none),
   c6_per_segment_failure_no_abort.2.1
      [{ index := 1, start := 0, «end» := 1000, text := "a" }] (fun _ _ => none) 0
      { index := 0, start := 0, «end» := 0, text := "" } rfl,
   c6_per_segment_failure_no_abort.2.2.1
      [{ index := 1, start := 0, «end» := 1000, text := "b" }] (fun _ _ => some "B") 0
      { index := 0, start := 0, «end» := 0, text := "" } "B" (by decide) rfl,
   c6_per_segment_failure_no_abort.2.2.2 [] []
      { index := 1, start := 0, «end» := 1000, text := "x" } (fun _ => none) 1 rfl⟩

/-- Outcome of one run of `main` (app.py lines 339-570): the run is either
rejected by the size gate before any pipeline stage runs, aborted at a stage
(`st.error` + early `return`, no outputs), or completed with the caption
entries, the translated caption entries and the assembled audio track. -/
inductive RunResult where
  | rejectedSize : RunResult
  | abortedStage : String → RunResult
  | success : List SrtEntry → List SrtEntry → List ℤ → RunResult
deriving DecidableEq

/-- The external collaborators consumed by one run of `main`: the video
duration moviepy reports (`none` models an exception in
`get_video_duration`), success of `extract_audio`, the transcription result
(detected language and segment list; `none` models both engines failing),
the per-line translation client and the synthesis client, and whether
`create_dubbed_video` succeeds. -/
structure Externals where
  duration : Option ℚ
  extractOk : Bool
  transcription : Option (String × List Segment)
  tr : ℕ → String → Option String
  tts : String → Option (List ℤ)
  muxOk : Bool

/-- app.py `main`, lines 403-497: the size gate `if file_size > 100` (with
`file_size = uploaded_file.size / (1024 * 1024)`) rejects before any stage;
then each stage's falsy result aborts the run (`if duration:` is falsy for
`None` and for `0.0`; an empty segment list is falsy for `if segments:`, so
zero transcription segments abort with "Failed to transcribe audio");
otherwise the subtitle, translation and audio stages run and the remux
decides between success and a final abort. -/
def app_main (sizeBytes : ℚ) (ext : Externals) : RunResult :=
  if sizeBytes / (1024 * 1024) > 100 then RunResult.rejectedSize
  else
    match ext.duration with
    | none => RunResult.abortedStage "duration"
    | some dur =>
      if dur = 0 then RunResult.abortedStage "duration"
      else if ext.extractOk = false then RunResult.abortedStage "extract"
      else
        match ext.transcription with
        | none => RunResult.abortedStage "transcribe"
        | some langSegs =>
          if langSegs.2.isEmpty then RunResult.abortedStage "transcribe"
          else
            if ext.muxOk then
              RunResult.success (generate_subtitle_file langSegs.2)
                (translate_subtitles (generate_subtitle_file langSegs.2) ext.tr)
                (generate_translated_audio
                  (translate_subtitles (generate_subtitle_file langSegs.2) ext.tr)
                  ext.tts dur)
            else RunResult.abortedStage "mux"

/-- C5, counterexample: with a transcription that succeeds but yields zero
segments (and every other stage able to succeed), `main` treats the empty
list as a transcription failure (`if segments:` is falsy), reports "Failed to
transcribe audio" and returns early: no caption file, no audio track and no
remux are produced, contradicting the claimed empty-caption/silent-audio
output. -/
theorem c5_counterexample :
    app_main 1000000
        { duration := some 10, extractOk := true, transcription := some ("en", []),
          tr := fun _ _ => some "", tts := fun _ => none, muxOk := true }
      = RunResult.abortedStage "transcribe"
    ∧ app_main 1000000
        { duration := some 10, extractOk := true, transcription := some ("en", []),
          tr := fun _ _ => some "", tts := fun _ => none, muxOk := true }
      ≠ RunResult.success [] [] (silent 10000) := by
  have h : app_main 1000000
      { duration := some 10, extractOk := true, transcription := some ("en", []),
        tr := fun _ _ => some "", tts := fun _ => none, muxOk := true }
      = RunResult.abortedStage "transcribe" := by
    rw [app_main, if_neg (by norm_num)]
    decide
  constructor
  · exact h
  · rw [h]
    decide

/-- C5 (amended): when transcription succeeds but yields zero segments, `main`
does not crash but aborts: provided the run passed the size gate, obtained a
nonzero duration and extracted audio, the empty segment list is treated as a
transcription failure and the run returns early with no outputs produced. -/
theorem c5_zero_segments_abort (sizeBytes : ℚ) (ext : Externals) (lang : String)
    (dur : ℚ) (hsize : ¬ sizeBytes / (1024 * 1024) > 100)
    (hdur : ext.duration = some dur) (hdur0 : dur ≠ 0)
    (hex : ext.extractOk = true)
    (htrans : ext.transcription = some (lang, [])) :
    app_main sizeBytes ext = RunResult.abortedStage "transcribe" := by
  rw [app_main, if_neg hsize]
  simp only [hdur]
  rw [if_neg hdur0]
  rw [if_neg (show ¬ ext.extractOk = false by simp [hex])]
  simp only [htrans]
  rfl

theorem c5_witness :
    app_main 5000
        { duration := some 7, extractOk := true, transcription := some ("en", []),
          tr := fun _ _ => none, tts := fun _ => none, muxOk := false }
      = RunResult.abortedStage "transcribe" :=
  c5_zero_segments_abort 5000
    { duration := some 7, extractOk := true, transcription := some ("en", []),
      tr := fun _ _ => none, tts := fun _ => none, muxOk := false } "en" 7
    (by norm_num) rfl (by norm_num) rfl rfl

/-- C8: an upload whose byte size exceeds the 100 MB cap (the source computes
`file_size = size / (1024 * 1024)` and rejects when `file_size > 100`) makes
the run fail with a user-facing error before any pipeline stage executes: the
result is `rejectedSize` and is independent of every stage oracle, so no
stage runs and no output is produced. -/
theorem c8_size_cap_rejects (sizeBytes : ℚ) (ext ext' : Externals)
    (h : sizeBytes > 100 * 1024 * 1024) :
    app_main sizeBytes ext = RunResult.rejectedSize
    ∧ app_main sizeBytes ext = app_main sizeBytes ext' := by
  have hgate : sizeBytes / (1024 * 1024) > 100 := by
    rw [gt_iff_lt, lt_div_iff₀ (by norm_num : (0 : ℚ) < 1024 * 1024)]
    linarith
  constructor
  · rw [app_main, if_pos hgate]
  · rw [app_main, app_main, if_pos hgate, if_pos hgate]

theorem c8_witness :
    app_main 104857601
        { duration := none, extractOk := false, transcription := none,
          tr := fun _ _ => none, tts := fun _ => none, muxOk := false }
      = RunResult.rejectedSize
    ∧ app_main 104857601
        { duration := none, extractOk := false, transcription := none,
          tr := fun _ _ => none, tts := fun _ => none, muxOk := false }
      = app_main 104857601
          { duration := some 1, extractOk := true, transcription := some ("en", []),
            tr := fun _ _ => some "x", tts := fun _ => some [1], muxOk := true } :=
  c8_size_cap_rejects 104857601
    { duration := none, extractOk := false, transcription := none,
      tr := fun _ _ => none, tts := fun _ => none, muxOk := false }
    { duration := some 1, extractOk := true, transcription := some ("en", []),
      tr := fun _ _ => some "x", tts := fun _ => some [1], muxOk := true }
    (by norm_num)
